import Mathlib

/-!
Verification development for the developer-aptitude-assessment scoring core.

The TypeScript source is embedded shallowly:
- JavaScript numbers are modelled as `ℚ` (the scoring pipeline only adds,
  multiplies and divides); the one genuinely real-valued operation,
  `Math.sqrt` in the consistency metric, is modelled over `ℝ` with
  `Real.sqrt`.
- JavaScript `Set` semantics (duplicates collapse, membership) are modelled
  with `List.dedup` and list membership; only the distinct-element counts of
  those sets are consumed by the code.
- `Record<string, T>` maps are modelled as association lists with
  `List.lookup`.
- Functions that `throw` are modelled in `Except String`.
-/

/-- The closed set of question types (`QuestionType` in assessment.types.ts). -/
inductive QuestionType
  | multipleChoice
  | trueFalse
  | multipleSelect
deriving DecidableEq, Repr

/-- A question (assessment.types.ts `Question`). Answer options are kept as
their text; only `answers.length` is consumed by scoring. Answer indices are
`Int` because the source accepts arbitrary numbers and validates the range. -/
structure Question where
  id : String
  text : String
  type : QuestionType
  category : String
  answers : List String
  correctAnswers : List Int
  score : ℚ
  weight : ℚ
deriving DecidableEq, Repr

/-- Partial-credit breakdown (assessment.types.ts `PartialCreditDetails`). -/
structure PartialCreditDetails where
  correctSelections : Nat
  incorrectSelections : Nat
  missedSelections : Nat
  correctRatio : ℚ
  penaltyFactor : ℚ
deriving DecidableEq, Repr

/-- Result of grading one question (assessment.types.ts `QuestionResult`). -/
structure QuestionResult where
  questionId : String
  category : String
  type : QuestionType
  userAnswers : List Int
  correctAnswers : List Int
  earnedPoints : ℚ
  maxPoints : ℚ
  percentage : ℚ
  isCorrect : Bool
  isPartialCredit : Bool
  partialCreditDetails : Option PartialCreditDetails
  weight : ℚ
  timeSpent : Option ℚ
deriving DecidableEq, Repr

/-- The five performance bands (assessment.types.ts
`PerformanceClassification`). -/
inductive PerformanceClassification
  | exceptional
  | strength
  | adequate
  | weakness
  | criticalWeakness
deriving DecidableEq, Repr

/-- tiers.ts `getTierFromPercentage`: map a percentage to a tier level 1-5. -/
def getTierFromPercentage (percentage : ℚ) : Nat :=
  if percentage ≥ 85 then 5
  else if percentage ≥ 70 then 4
  else if percentage ≥ 55 then 3
  else if percentage ≥ 40 then 2
  else 1

/-- tiers.ts `getTierRank`: the rank label of a tier level, from the
`TIER_DEFINITIONS` table (defined there for the levels 1-5 that
`getTierFromPercentage` produces). -/
def getTierRank (tier : Nat) : String :=
  match tier with
  | 5 => "Expert"
  | 4 => "Advanced"
  | 3 => "Intermediate"
  | 2 => "Beginner"
  | _ => "Novice"

/-- tiers.ts `getPerformanceClassification` with the thresholds of
`PERFORMANCE_THRESHOLDS` (85 / 75 / 60 / 45 inlined there via `.min`). -/
def getPerformanceClassification (percentage : ℚ) : PerformanceClassification :=
  if percentage ≥ 85 then PerformanceClassification.exceptional
  else if percentage ≥ 75 then PerformanceClassification.strength
  else if percentage ≥ 60 then PerformanceClassification.adequate
  else if percentage ≥ 45 then PerformanceClassification.weakness
  else PerformanceClassification.criticalWeakness

/-- categories.ts `CATEGORY_NAME_TO_CODE`. -/
def CATEGORY_NAME_TO_CODE : List (String × String) :=
  [("Pattern Recognition & Sequences", "pattern_recognition"),
   ("Logical Reasoning", "logical_reasoning"),
   ("Abstract Thinking", "abstract_thinking"),
   ("Systematic Problem-Solving", "systematic_problem_solving"),
   ("Attention to Detail", "attention_to_detail"),
   ("Spatial & Visual Reasoning", "spatial_visual_reasoning"),
   ("Mathematical Reasoning", "mathematical_reasoning"),
   ("Rule Application", "rule_application")]

/-- categories.ts `getCategoryCode` (a `Record` lookup; an unknown name is
`undefined` in the source, modelled as the empty string). -/
def getCategoryCode (name : String) : String :=
  (CATEGORY_NAME_TO_CODE.lookup name).getD ""

/-- An answer index is valid when `0 ≤ a` and `a ≤ answers.length - 1`
(question-scorer.ts checks `answer < 0 || answer > maxIndex`). -/
def validIndex (numAnswers : Nat) (a : Int) : Bool :=
  decide (0 ≤ a) && decide (a ≤ (numAnswers : Int) - 1)

/-- The type-specific part of question-scorer.ts `validateQuestionInput`
(its final `switch` over the question type). -/
def validateQuestionType (q : Question) : Except String Unit :=
  match q.type with
  | QuestionType.trueFalse =>
    if q.answers.length ≠ 2 then
      Except.error ("True/False question " ++ q.id ++ " must have exactly 2 answers")
    else if q.correctAnswers.length ≠ 1 then
      Except.error ("True/False question " ++ q.id ++ " must have exactly 1 correct answer")
    else Except.ok ()
  | QuestionType.multipleChoice =>
    if q.answers.length < 2 then
      Except.error ("Multiple choice question " ++ q.id ++ " must have at least 2 answers")
    else if q.correctAnswers.length ≠ 1 then
      Except.error ("Multiple choice question " ++ q.id ++ " must have exactly 1 correct answer")
    else Except.ok ()
  | QuestionType.multipleSelect =>
    if q.answers.length < 2 then
      Except.error ("Multiple select question " ++ q.id ++ " must have at least 2 answers")
    else if q.correctAnswers.length < 1 then
      Except.error ("Multiple select question " ++ q.id ++ " must have at least 1 correct answer")
    else Except.ok ()

/-- question-scorer.ts `validateQuestionInput`: shape checks in source order,
then the range checks, then the type-specific switch. -/
def validateQuestionInput (q : Question) (userAnswers : List Int) : Except String Unit :=
  if q.id = "" then
    Except.error "Question must have an id"
  else if q.correctAnswers.isEmpty then
    Except.error ("Question " ++ q.id ++ " must have correct answers")
  else if q.score < 0 then
    Except.error ("Question " ++ q.id ++ " must have a valid score")
  else if q.answers.isEmpty then
    Except.error ("Question " ++ q.id ++ " must have answers")
  else if Bool.not (userAnswers.all (validIndex q.answers.length)) then
    Except.error ("Invalid answer index for question " ++ q.id)
  else if Bool.not (q.correctAnswers.all (validIndex q.answers.length)) then
    Except.error ("Invalid correct answer index for question " ++ q.id)
  else
    validateQuestionType q

/-- question-scorer.ts `scoreStandardQuestion`: all-or-nothing grading of a
multiple-choice or true/false question. Correct iff the raw submitted array
has length 1, the correct-answer array has length 1, and the single entries
coincide. -/
def scoreStandardQuestion (q : Question) (userAnswers : List Int) : ℚ × Bool :=
  let isCorrect : Bool :=
    match userAnswers, q.correctAnswers with
    | [u], [c] => decide (u = c)
    | _, _ => false
  (if isCorrect then q.score else 0, isCorrect)

/-- question-scorer.ts `scoreMultipleSelectQuestion`: proportional partial
credit with an incorrect-selection penalty, over the distinct submitted
indices (`new Set(userAnswers)`) and distinct correct indices. -/
def scoreMultipleSelectQuestion (q : Question) (userAnswers : List Int) :
    ℚ × Bool × PartialCreditDetails :=
  let correctSet := q.correctAnswers.dedup
  let userSet := userAnswers.dedup
  let correctSelections := (userSet.filter (fun a => decide (a ∈ correctSet))).length
  let incorrectSelections := (userSet.filter (fun a => decide (a ∉ correctSet))).length
  let totalCorrectAnswers := correctSet.length
  let missedSelections := totalCorrectAnswers - correctSelections
  let correctRatio : ℚ :=
    if 0 < totalCorrectAnswers then (correctSelections : ℚ) / (totalCorrectAnswers : ℚ) else 0
  let penaltyFactor : ℚ :=
    if 0 < totalCorrectAnswers then
      max 0 (1 - (incorrectSelections : ℚ) / (totalCorrectAnswers : ℚ))
    else 0
  let earnedPoints := q.score * correctRatio * penaltyFactor
  let isCorrect : Bool := decide (correctSelections = totalCorrectAnswers ∧ incorrectSelections = 0)
  (earnedPoints, isCorrect,
    { correctSelections := correctSelections
      incorrectSelections := incorrectSelections
      missedSelections := missedSelections
      correctRatio := correctRatio
      penaltyFactor := penaltyFactor })

/-- question-scorer.ts `scoreQuestion`: validate, dispatch on the question
type, compute the percentage, and assemble the `QuestionResult`. -/
def scoreQuestion (q : Question) (userAnswers : List Int) (timeSpent : Option ℚ) :
    Except String QuestionResult :=
  match validateQuestionInput q userAnswers with
  | Except.error e => Except.error e
  | Except.ok _ =>
    let scored : ℚ × Bool × Bool × Option PartialCreditDetails :=
      match q.type with
      | QuestionType.multipleChoice =>
        let s := scoreStandardQuestion q userAnswers
        (s.1, s.2, false, none)
      | QuestionType.trueFalse =>
        let s := scoreStandardQuestion q userAnswers
        (s.1, s.2, false, none)
      | QuestionType.multipleSelect =>
        let s := scoreMultipleSelectQuestion q userAnswers
        (s.1, s.2.1, decide (0 < s.1 ∧ s.1 < q.score), some s.2.2)
    let earnedPoints := scored.1
    let percentage := if 0 < q.score then earnedPoints / q.score * 100 else 0
    Except.ok
      { questionId := q.id
        category := q.category
        type := q.type
        userAnswers := userAnswers
        correctAnswers := q.correctAnswers
        earnedPoints := earnedPoints
        maxPoints := q.score
        percentage := percentage
        isCorrect := scored.2.1
        isPartialCredit := scored.2.2.1
        partialCreditDetails := scored.2.2.2
        weight := q.weight
        timeSpent := timeSpent }

/-- question-scorer.ts `scoreQuestions`: grade a list of questions against an
answer map; a missing entry defaults to the empty submission
(`userAnswers[question.id] || []`). The first validation error aborts the
whole pass. -/
def scoreQuestions (questions : List Question) (userAnswers : List (String × List Int))
    (timeSpent : List (String × ℚ)) : Except String (List QuestionResult) :=
  questions.mapM fun q =>
    scoreQuestion q ((userAnswers.lookup q.id).getD []) (timeSpent.lookup q.id)

/-- question-scorer.ts `calculateTotalPoints`: plain sums of earned and max
points and their ratio as a percentage (0 if max is 0). -/
def calculateTotalPoints (results : List QuestionResult) : ℚ × ℚ × ℚ :=
  let earnedPoints : ℚ := results.foldl (fun sum r => sum + r.earnedPoints) 0
  let maxPoints : ℚ := results.foldl (fun sum r => sum + r.maxPoints) 0
  let percentage := if 0 < maxPoints then earnedPoints / maxPoints * 100 else 0
  (earnedPoints, maxPoints, percentage)

/-- Aggregate result for one category (assessment.types.ts `CategoryResult`). -/
structure CategoryResult where
  name : String
  code : String
  earnedPoints : ℚ
  maxPoints : ℚ
  percentage : ℚ
  totalWeight : ℚ
  weightedContribution : ℚ
  tier : Nat
  rank : String
  classification : PerformanceClassification
  questionCount : Nat
  correctCount : Nat
  partialCreditCount : Nat
  incorrectCount : Nat
  questions : List String
deriving DecidableEq, Repr

/-- The keys of category-scorer.ts `groupByCategory`'s `Map`, in first-
appearance order (a JS `Map` iterates keys in insertion order). -/
def categoryKeys (questionResults : List QuestionResult) : List String :=
  questionResults.foldl
    (fun keys r => if r.category ∈ keys then keys else keys ++ [r.category]) []

/-- category-scorer.ts `groupByCategory`: each key's group is the sublist of
input results with that category, in input order (each result is appended to
its key's array as the loop runs). -/
def groupByCategory (questionResults : List QuestionResult) :
    List (String × List QuestionResult) :=
  (categoryKeys questionResults).map
    (fun c => (c, questionResults.filter (fun r => decide (r.category = c))))

/-- category-scorer.ts `scoreCategoryFromResults`: totals, percentage, tier,
classification and outcome counts for one category. -/
def scoreCategoryFromResults (category : String) (questionResults : List QuestionResult) :
    CategoryResult :=
  let earnedPoints : ℚ := questionResults.foldl (fun sum r => sum + r.earnedPoints) 0
  let maxPoints : ℚ := questionResults.foldl (fun sum r => sum + r.maxPoints) 0
  let totalWeight : ℚ := questionResults.foldl (fun sum r => sum + r.weight) 0
  let percentage := if 0 < maxPoints then earnedPoints / maxPoints * 100 else 0
  let tier := getTierFromPercentage percentage
  { name := category
    code := getCategoryCode category
    earnedPoints := earnedPoints
    maxPoints := maxPoints
    percentage := percentage
    totalWeight := totalWeight
    weightedContribution := 0
    tier := tier
    rank := getTierRank tier
    classification := getPerformanceClassification percentage
    questionCount := questionResults.length
    correctCount := (questionResults.filter (fun r => r.isCorrect)).length
    partialCreditCount := (questionResults.filter (fun r => !r.isCorrect && r.isPartialCredit)).length
    incorrectCount := (questionResults.filter (fun r => !r.isCorrect && !r.isPartialCredit)).length
    questions := questionResults.map (fun r => r.questionId) }

/-- The comparator of category-scorer.ts `scoreCategories`'s final sort (the
source's `localeCompare` modelled as the lexicographic order on `String`). -/
def byName (a b : CategoryResult) : Bool :=
  decide (a.name ≤ b.name)

/-- category-scorer.ts `scoreCategories`: one `CategoryResult` per category
present in the input, sorted by category name. -/
def scoreCategories (questionResults : List QuestionResult) : List CategoryResult :=
  let categoryResults :=
    (groupByCategory questionResults).map (fun p => scoreCategoryFromResults p.1 p.2)
  categoryResults.mergeSort byName

/-- category-scorer.ts `calculateWeightedContributions`: second pass filling
in each category's share of the overall score; the input is returned
unchanged when the grand total weight is 0. -/
def calculateWeightedContributions (categoryResults : List CategoryResult) :
    List CategoryResult :=
  let totalWeight : ℚ := categoryResults.foldl (fun sum cat => sum + cat.totalWeight) 0
  if totalWeight = 0 then categoryResults
  else
    categoryResults.map fun category =>
      { category with
        weightedContribution := category.percentage * category.totalWeight / totalWeight }

/-- overall-scorer.ts `calculateOverallScore`: weight-weighted mean of the
category percentages (one accumulating loop in the source), 0 for an empty
list or zero total weight. -/
def calculateOverallScore (categoryResults : List CategoryResult) : ℚ :=
  if categoryResults.isEmpty then 0
  else
    let sums : ℚ × ℚ := categoryResults.foldl
      (fun acc category =>
        (acc.1 + category.percentage * category.totalWeight, acc.2 + category.totalWeight))
      (0, 0)
    if sums.2 = 0 then 0 else sums.1 / sums.2

/-- Overall aggregate (assessment.types.ts `OverallResult`). -/
structure OverallResult where
  score : ℚ
  maxPossible : ℚ
  earnedPoints : ℚ
  percentage : ℚ
  tier : Nat
  rank : String
deriving DecidableEq, Repr

/-- overall-scorer.ts `calculateOverallResult`: the weighted score plus the
plain point sums from `calculateTotalPoints`. -/
def calculateOverallResult (categoryResults : List CategoryResult)
    (questionResults : List QuestionResult) : OverallResult :=
  let totals := calculateTotalPoints questionResults
  let score := calculateOverallScore categoryResults
  let tier := getTierFromPercentage score
  { score := score
    maxPossible := totals.2.1
    earnedPoints := totals.1
    percentage := score
    tier := tier
    rank := getTierRank tier }

/-- analysis.types.ts `CategorySummary`. -/
structure CategorySummary where
  name : String
  percentage : ℚ
  tier : Nat
  questionCount : Nat
deriving DecidableEq, Repr

/-- analysis.types.ts `ConsistencyMetrics`; real-valued because the source
takes a `Math.sqrt`. -/
structure ConsistencyMetrics where
  mean : ℝ
  standardDeviation : ℝ
  coefficientOfVariation : ℝ
  range : ℝ
  consistencyScore : ℝ

/-- analysis.types.ts `PerformanceAnalysis` (the improvement potential is one
of the strings "high", "medium", "low"). -/
structure PerformanceAnalysis where
  exceptional : List CategorySummary
  strengths : List CategorySummary
  adequate : List CategorySummary
  weaknesses : List CategorySummary
  criticalWeaknesses : List CategorySummary
  consistencyScore : ℝ
  improvementPotential : String

/-- The summary view built for each category in performance-analyzer.ts
`classifyCategories`. -/
def toCategorySummary (category : CategoryResult) : CategorySummary :=
  { name := category.name
    percentage := category.percentage
    tier := category.tier
    questionCount := category.questionCount }

/-- One band of performance-analyzer.ts `classifyCategories`: the summaries
of the categories falling in that band, sorted by percentage descending. -/
def classifyInto (categoryResults : List CategoryResult) (band : PerformanceClassification) :
    List CategorySummary :=
  ((categoryResults.filter
      (fun category => decide (getPerformanceClassification category.percentage = band))).map
    toCategorySummary).mergeSort (fun a b => decide (b.percentage ≤ a.percentage))

open Classical in
/-- performance-analyzer.ts `calculateConsistency`: mean, population standard
deviation, coefficient of variation, range, and the clamped consistency
score. `Math.min`/`Math.max` over the non-empty score list are folds seeded
with the first element. -/
noncomputable def calculateConsistency (categoryResults : List CategoryResult) :
    ConsistencyMetrics :=
  match categoryResults with
  | [] =>
    { mean := 0, standardDeviation := 0, coefficientOfVariation := 0, range := 0
      consistencyScore := 0 }
  | _ :: _ =>
    let scores : List ℝ := categoryResults.map (fun cat => ((cat.percentage : ℚ) : ℝ))
    let mean : ℝ := scores.sum / (scores.length : ℝ)
    let variance : ℝ := ((scores.map (fun score => (score - mean) ^ 2)).sum) / (scores.length : ℝ)
    let standardDeviation : ℝ := Real.sqrt variance
    let coefficientOfVariation : ℝ := if mean ≠ 0 then standardDeviation / mean * 100 else 0
    let minScore : ℝ := scores.foldl min (scores.headD 0)
    let maxScore : ℝ := scores.foldl max (scores.headD 0)
    let consistencyScore : ℝ := max 0 (min 100 (100 - coefficientOfVariation * 2))
    { mean := mean
      standardDeviation := standardDeviation
      coefficientOfVariation := coefficientOfVariation
      range := maxScore - minScore
      consistencyScore := consistencyScore }

open Classical in
/-- performance-analyzer.ts `determineImprovementPotential`: ordered rules,
first match wins. -/
noncomputable def determineImprovementPotential (overallScore : ℚ)
    (consistencyScore : ℝ) : String :=
  if overallScore ≥ 85 then "low"
  else if overallScore < 60 ∧ consistencyScore > 70 then "high"
  else if overallScore < 70 ∨ consistencyScore < 50 then "high"
  else "medium"

/-- performance-analyzer.ts `analyzePerformance`. -/
noncomputable def analyzePerformance (categoryResults : List CategoryResult)
    (overall : OverallResult) : PerformanceAnalysis :=
  let consistency := calculateConsistency categoryResults
  { exceptional := classifyInto categoryResults PerformanceClassification.exceptional
    strengths := classifyInto categoryResults PerformanceClassification.strength
    adequate := classifyInto categoryResults PerformanceClassification.adequate
    weaknesses := classifyInto categoryResults PerformanceClassification.weakness
    criticalWeaknesses := classifyInto categoryResults PerformanceClassification.criticalWeakness
    consistencyScore := consistency.consistencyScore
    improvementPotential :=
      determineImprovementPotential overall.percentage consistency.consistencyScore }

/-- assessment.types.ts `AssessmentInput`. -/
structure AssessmentInput where
  assessmentId : String
  userId : String
  questions : List Question
  userAnswers : List (String × List Int)
  timeSpent : Option (List (String × ℚ))

/-- assessment.types.ts `ScoringOptions` with the defaults destructured in
`scoreAssessment`. -/
structure ScoringOptions where
  includeAnalysis : Bool := true
  includeRecommendations : Bool := true
  version : String := "1.0"

/-- assessment.types.ts `AssessmentMetadata`. -/
structure AssessmentMetadata where
  totalQuestions : Nat
  questionsAnswered : Nat
  timeSpent : ℚ
  version : String
deriving DecidableEq, Repr

/-- assessment.types.ts `AssessmentResult`, polymorphic in the
recommendation payload (built by the external career recommender). -/
structure AssessmentResult (Rec : Type) where
  assessmentId : String
  userId : String
  completedAt : String
  overall : OverallResult
  categories : List CategoryResult
  questions : List QuestionResult
  analysis : PerformanceAnalysis
  recommendations : Rec
  metadata : AssessmentMetadata

/-- overall-scorer.ts `calculateMetadata` (its `questionResults` parameter is
unused in the source too). -/
def calculateMetadata (input : AssessmentInput) (questionResults : List QuestionResult)
    (version : String) : AssessmentMetadata :=
  let timeTotal : ℚ := ((input.timeSpent.getD []).map (fun p => p.2)).foldl (fun sum t => sum + t) 0
  { totalQuestions := input.questions.length
    questionsAnswered := input.userAnswers.length
    timeSpent := timeTotal
    version := version }

/-- overall-scorer.ts `createEmptyAnalysis`. -/
def createEmptyAnalysis : PerformanceAnalysis :=
  { exceptional := [], strengths := [], adequate := [], weaknesses := []
    criticalWeaknesses := [], consistencyScore := 0, improvementPotential := "medium" }

/-- overall-scorer.ts `scoreAssessment`. Two aspects are abstracted:
`new Date().toISOString()` — the source's only non-deterministic input — is
passed in as `now`, and the career recommender (which joins against static
JSON data files outside the scoring core) is passed in as the pure function
`recommend`, with `emptyRec` standing for `createEmptyRecommendations()`. -/
noncomputable def scoreAssessment {Rec : Type}
    (recommend : List CategoryResult → OverallResult → PerformanceAnalysis → Rec)
    (emptyRec : Rec) (input : AssessmentInput) (options : ScoringOptions) (now : String) :
    Except String (AssessmentResult Rec) :=
  match scoreQuestions input.questions input.userAnswers (input.timeSpent.getD []) with
  | Except.error e => Except.error e
  | Except.ok questionResults =>
    let categoryResults := calculateWeightedContributions (scoreCategories questionResults)
    let overall := calculateOverallResult categoryResults questionResults
    let metadata := calculateMetadata input questionResults options.version
    let analysis :=
      if options.includeAnalysis then analyzePerformance categoryResults overall
      else createEmptyAnalysis
    let recommendations :=
      if options.includeRecommendations then recommend categoryResults overall analysis
      else emptyRec
    Except.ok
      { assessmentId := input.assessmentId
        userId := input.userId
        completedAt := now
        overall := overall
        categories := categoryResults
        questions := questionResults
        analysis := analysis
        recommendations := recommendations
        metadata := metadata }

/-- A running-sum `foldl` equals the initial value plus the sum of the
mapped list. -/
theorem foldl_add_sum {α : Type} (f : α → ℚ) (l : List α) (a : ℚ) :
    l.foldl (fun s x => s + f x) a = a + (l.map f).sum := by
  induction l generalizing a with
  | nil => simp
  | cons x xs ih => simp [ih, add_assoc]

/-- The accumulating pair loop of `calculateOverallScore` computes the two
sums. -/
theorem foldl_pair_sum (l : List CategoryResult) (a b : ℚ) :
    l.foldl
      (fun acc category =>
        (acc.1 + category.percentage * category.totalWeight, acc.2 + category.totalWeight))
      (a, b) =
      (a + (l.map fun c => c.percentage * c.totalWeight).sum,
       b + (l.map fun c => c.totalWeight).sum) := by
  induction l generalizing a b with
  | nil => simp
  | cons x xs ih => simp [ih, add_assoc]

/-- Closed form of `calculateOverallScore`: the weight-weighted mean of the
category percentages, 0 when the total weight vanishes. -/
theorem calculateOverallScore_eq (categoryResults : List CategoryResult) :
    calculateOverallScore categoryResults =
      if (categoryResults.map fun c => c.totalWeight).sum = 0 then 0
      else (categoryResults.map fun c => c.percentage * c.totalWeight).sum /
        (categoryResults.map fun c => c.totalWeight).sum := by
  unfold calculateOverallScore
  cases categoryResults with
  | nil => simp
  | cons x xs => simp [foldl_pair_sum]

/-- Dividing each mapped summand by a constant divides the sum. -/
theorem map_sum_div (l : List CategoryResult) (f : CategoryResult → ℚ) (d : ℚ) :
    (l.map fun c => f c / d).sum = (l.map f).sum / d := by
  induction l with
  | nil => simp
  | cons x xs ih => simp [ih, add_div]

/-- C2: for every list of category results the overall score is
`Σ(percentage × totalWeight) / Σ totalWeight` — a weight-weighted mean of
category percentages — and 0 when the list is empty or the total weight is 0;
in the assembled `OverallResult`, `earnedPoints` and `maxPossible` are the
plain unweighted sums of the question results' earned and max points, and the
percentage field is the weighted score. -/
theorem overall_score_weighted_mean (categoryResults : List CategoryResult)
    (questionResults : List QuestionResult) :
    (calculateOverallScore categoryResults =
      if (categoryResults.map fun c => c.totalWeight).sum = 0 then 0
      else (categoryResults.map fun c => c.percentage * c.totalWeight).sum /
        (categoryResults.map fun c => c.totalWeight).sum) ∧
    calculateOverallScore [] = 0 ∧
    (calculateOverallResult categoryResults questionResults).earnedPoints =
      (questionResults.map fun r => r.earnedPoints).sum ∧
    (calculateOverallResult categoryResults questionResults).maxPossible =
      (questionResults.map fun r => r.maxPoints).sum ∧
    (calculateOverallResult categoryResults questionResults).percentage =
      calculateOverallScore categoryResults := by
  refine ⟨calculateOverallScore_eq _, by simp [calculateOverallScore], ?_, ?_, rfl⟩
  · simp [calculateOverallResult, calculateTotalPoints, foldl_add_sum]
  · simp [calculateOverallResult, calculateTotalPoints, foldl_add_sum]

/-- C10: when the grand total weight is positive, each category's
`weightedContribution` is `percentage × totalWeight / Σ totalWeight`, and the
contributions sum exactly to `calculateOverallScore`. -/
theorem weightedContributions_sum_to_overall (categoryResults : List CategoryResult)
    (hW : 0 < (categoryResults.map fun c => c.totalWeight).sum) :
    ((calculateWeightedContributions categoryResults).map fun c => c.weightedContribution) =
      (categoryResults.map fun c =>
        c.percentage * c.totalWeight / (categoryResults.map fun c => c.totalWeight).sum) ∧
    (((calculateWeightedContributions categoryResults).map fun c => c.weightedContribution).sum =
      calculateOverallScore categoryResults) := by
  have hfold : (categoryResults.foldl (fun sum cat => sum + cat.totalWeight) 0) =
      (categoryResults.map fun c => c.totalWeight).sum := by
    simpa using foldl_add_sum (fun c => c.totalWeight) categoryResults 0
  have hne : (categoryResults.map fun c => c.totalWeight).sum ≠ 0 := ne_of_gt hW
  have hmap : ((calculateWeightedContributions categoryResults).map
      fun c => c.weightedContribution) =
      (categoryResults.map fun c =>
        c.percentage * c.totalWeight / (categoryResults.map fun c => c.totalWeight).sum) := by
    unfold calculateWeightedContributions
    rw [hfold, if_neg hne, List.map_map]
    rfl
  refine ⟨hmap, ?_⟩
  rw [hmap, calculateOverallScore_eq, if_neg hne,
    map_sum_div categoryResults (fun c => c.percentage * c.totalWeight)]

/-- A concrete category result used as a test input; only the fields the
claims read (name, percentage, totalWeight) are significant. -/
def mkCategoryResult (name : String) (pct w : ℚ) : CategoryResult :=
  { name := name
    code := ""
    earnedPoints := 0
    maxPoints := 0
    percentage := pct
    totalWeight := w
    weightedContribution := 0
    tier := 1
    rank := "Novice"
    classification := PerformanceClassification.criticalWeakness
    questionCount := 0
    correctCount := 0
    partialCreditCount := 0
    incorrectCount := 0
    questions := [] }

/-- Witness for C10 at a concrete two-category input. -/
theorem weightedContributions_sum_to_overall_witness :
    (([mkCategoryResult "A" 100 3, mkCategoryResult "B" 25 1].map
        fun c => c.totalWeight).sum > 0) ∧
    ((((calculateWeightedContributions
        [mkCategoryResult "A" 100 3, mkCategoryResult "B" 25 1]).map
      fun c => c.weightedContribution).sum =
      calculateOverallScore [mkCategoryResult "A" 100 3, mkCategoryResult "B" 25 1])) :=
  ⟨by norm_num [mkCategoryResult],
   (weightedContributions_sum_to_overall
      [mkCategoryResult "A" 100 3, mkCategoryResult "B" 25 1]
      (by norm_num [mkCategoryResult])).2⟩

/-- Numeric height of a classification band, used to state monotonicity
(critical-weakness lowest, exceptional highest). -/
def classificationLevel : PerformanceClassification → Nat
  | PerformanceClassification.criticalWeakness => 1
  | PerformanceClassification.weakness => 2
  | PerformanceClassification.adequate => 3
  | PerformanceClassification.strength => 4
  | PerformanceClassification.exceptional => 5

/-- The tier mapper is monotone non-decreasing. -/
theorem getTierFromPercentage_mono (p q : ℚ) (h : p ≤ q) :
    getTierFromPercentage p ≤ getTierFromPercentage q := by
  unfold getTierFromPercentage
  split_ifs <;> first | decide | (exfalso; linarith)

/-- The classification mapper is monotone non-decreasing in band height. -/
theorem getPerformanceClassification_mono (p q : ℚ) (h : p ≤ q) :
    classificationLevel (getPerformanceClassification p) ≤
      classificationLevel (getPerformanceClassification q) := by
  unfold getPerformanceClassification classificationLevel
  split_ifs <;> first | decide | (exfalso; linarith)

/-- C3: on [0,100] the tier and classification mappers are inclusive-lower-
bound step functions with the stated bands, both monotone non-decreasing, and
every boundary value lands in the higher band. -/
theorem tier_classification_step (p : ℚ) (h0 : 0 ≤ p) (h100 : p ≤ 100) :
    ((p < 40 → getTierFromPercentage p = 1) ∧
     (40 ≤ p → p < 55 → getTierFromPercentage p = 2) ∧
     (55 ≤ p → p < 70 → getTierFromPercentage p = 3) ∧
     (70 ≤ p → p < 85 → getTierFromPercentage p = 4) ∧
     (85 ≤ p → getTierFromPercentage p = 5)) ∧
    ((p < 45 → getPerformanceClassification p = PerformanceClassification.criticalWeakness) ∧
     (45 ≤ p → p < 60 → getPerformanceClassification p = PerformanceClassification.weakness) ∧
     (60 ≤ p → p < 75 → getPerformanceClassification p = PerformanceClassification.adequate) ∧
     (75 ≤ p → p < 85 → getPerformanceClassification p = PerformanceClassification.strength) ∧
     (85 ≤ p → getPerformanceClassification p = PerformanceClassification.exceptional)) ∧
    (∀ q : ℚ, p ≤ q →
      getTierFromPercentage p ≤ getTierFromPercentage q ∧
      classificationLevel (getPerformanceClassification p) ≤
        classificationLevel (getPerformanceClassification q)) ∧
    (getTierFromPercentage 40 = 2 ∧ getTierFromPercentage 55 = 3 ∧
     getTierFromPercentage 70 = 4 ∧ getTierFromPercentage 85 = 5 ∧
     getPerformanceClassification 45 = PerformanceClassification.weakness ∧
     getPerformanceClassification 60 = PerformanceClassification.adequate ∧
     getPerformanceClassification 75 = PerformanceClassification.strength ∧
     getPerformanceClassification 85 = PerformanceClassification.exceptional) := by
  refine ⟨⟨?_, ?_, ?_, ?_, ?_⟩, ⟨?_, ?_, ?_, ?_, ?_⟩,
    fun q hq => ⟨getTierFromPercentage_mono p q hq, getPerformanceClassification_mono p q hq⟩,
    by decide, by decide, by decide, by decide, by decide, by decide, by decide, by decide⟩ <;>
    (intros; simp only [getTierFromPercentage, getPerformanceClassification];
     split_ifs <;> first | rfl | (exfalso; linarith))

/-- Witness for C3: boundary values at a concrete percentage land in the
higher band. -/
theorem tier_classification_step_witness :
    getTierFromPercentage 85 = 5 ∧
    getPerformanceClassification 85 = PerformanceClassification.exceptional :=
  ⟨((tier_classification_step 85 (by norm_num) (by norm_num)).1).2.2.2.2 (by norm_num),
   ((tier_classification_step 85 (by norm_num) (by norm_num)).2.1).2.2.2.2 (by norm_num)⟩

/-- A concrete multi-correct question: 4 options, correct set {0, 1}, base
score 15, the configuration of the spec's verification table. -/
def qMS : Question :=
  { id := "ms1"
    text := "pick all that apply"
    type := QuestionType.multipleSelect
    category := "Logical Reasoning"
    answers := ["a", "b", "c", "d"]
    correctAnswers := [0, 1]
    score := 15
    weight := 2 }

/-- An `Except.error` is never `isOk`. -/
theorem isOk_error {α : Type} {e : String} : (Except.error e : Except String α).isOk = false := rfl

/-- An `Except.ok` is `isOk`. -/
theorem isOk_ok {α : Type} {a : α} : (Except.ok a : Except String α).isOk = true := rfl

/-- A successful validation implies a non-empty correct-answer list and a
successful type-specific validation. -/
theorem validateQuestionInput_ok_facts (q : Question) (ua : List Int)
    (h : (validateQuestionInput q ua).isOk = true) :
    q.correctAnswers ≠ [] ∧ (validateQuestionType q).isOk = true := by
  unfold validateQuestionInput at h
  split_ifs at h with h1 h2 h3 h4 h5 h6 <;>
    first
      | exact ⟨by simpa [List.isEmpty_iff] using h2, h⟩
      | exact absurd h (by simp [isOk_error])

/-- For a single-correct type, successful type validation forces exactly one
correct answer. -/
theorem validateQuestionType_single (q : Question)
    (hType : q.type = QuestionType.multipleChoice ∨ q.type = QuestionType.trueFalse)
    (h : (validateQuestionType q).isOk = true) : q.correctAnswers.length = 1 := by
  unfold validateQuestionType at h
  rcases hType with ht | ht <;> rw [ht] at h <;> split_ifs at h with h1 h2 <;>
    simp_all [isOk_error]

/-- C1: for every valid multi-correct question (base score S, k distinct
correct indices) and every submission with c distinct correct and w distinct
incorrect indices (duplicates collapsed), the earned points are
S × (c/k) × max(0, 1 − w/k); and the spec's table for k = 2, S = 15 holds:
{2,0} → 15, {1,0} → 7.5, {2,1} → 7.5, {1,1} → 3.75, {0,2} → 0. -/
theorem multipleSelect_partial_credit (q : Question) (ua : List Int) (ts : Option ℚ)
    (hType : q.type = QuestionType.multipleSelect)
    (hValid : (validateQuestionInput q ua).isOk = true) :
    (((scoreQuestion q ua ts).map fun r => r.earnedPoints) =
      Except.ok (q.score *
        (((ua.dedup.filter fun a => decide (a ∈ q.correctAnswers.dedup)).length : ℚ) /
          (q.correctAnswers.dedup.length : ℚ)) *
        max 0 (1 - ((ua.dedup.filter fun a => decide (a ∉ q.correctAnswers.dedup)).length : ℚ) /
          (q.correctAnswers.dedup.length : ℚ)))) ∧
    (((scoreQuestion qMS [0, 1] none).map fun r => r.earnedPoints) = Except.ok 15) ∧
    (((scoreQuestion qMS [0] none).map fun r => r.earnedPoints) = Except.ok (15 / 2)) ∧
    (((scoreQuestion qMS [0, 1, 2] none).map fun r => r.earnedPoints) = Except.ok (15 / 2)) ∧
    (((scoreQuestion qMS [0, 2] none).map fun r => r.earnedPoints) = Except.ok (15 / 4)) ∧
    (((scoreQuestion qMS [2, 3] none).map fun r => r.earnedPoints) = Except.ok 0) := by
  obtain ⟨hne, -⟩ := validateQuestionInput_ok_facts q ua hValid
  have hk : 0 < q.correctAnswers.dedup.length := by
    rw [List.length_pos]
    simpa [List.dedup_eq_nil] using hne
  refine ⟨?_, ?_, ?_, ?_, ?_, ?_⟩
  · cases hv : validateQuestionInput q ua with
    | error e => rw [hv] at hValid; simp [isOk_error] at hValid
    | ok u =>
      simp only [scoreQuestion, hv, hType, scoreMultipleSelectQuestion, Except.map, if_pos hk]
  all_goals
    norm_num [scoreQuestion, validateQuestionInput, validateQuestionType, validIndex,
      scoreMultipleSelectQuestion, qMS]
  all_goals rfl

/-- Witness for C1: one row of the table, obtained from the theorem applied
at the concrete question `qMS` and submission `[0]`. -/
theorem multipleSelect_partial_credit_witness :
    ((scoreQuestion qMS [0] none).map fun r => r.earnedPoints) = Except.ok (15 / 2) :=
  (multipleSelect_partial_credit qMS [0] none rfl (by decide)).2.2.1

/-- A concrete single-correct question: 3 options, correct index 1, base
score 10. -/
def qMC : Question :=
  { id := "mc1"
    text := "choose one"
    type := QuestionType.multipleChoice
    category := "Pattern Recognition & Sequences"
    answers := ["a", "b", "c"]
    correctAnswers := [1]
    score := 10
    weight := 1 }

/-- C5 counterexample: the submission [1, 1] has a submitted set with exactly
one element, equal to the single correct index of `qMC`, yet the code grades
it incorrect with 0 earned points — the source compares the raw submitted
array, not the submitted set. -/
theorem standard_submitted_set_counterexample :
    ([1, 1] : List Int).dedup = [1] ∧
    qMC.correctAnswers = [1] ∧
    ((scoreQuestion qMC [1, 1] none).map fun r => (r.isCorrect, r.earnedPoints)) =
      Except.ok (false, 0) := by
  refine ⟨by decide, rfl, ?_⟩
  norm_num [scoreQuestion, validateQuestionInput, validateQuestionType, validIndex,
    scoreStandardQuestion, qMC]
  rfl

/-- C5 amended: for a valid single-correct question, the result is marked
correct with full points iff the raw submitted list is exactly the one-
element correct-answer list (duplicated submissions of the correct index are
graded incorrect); every other submission earns 0. -/
theorem standard_all_or_nothing (q : Question) (ua : List Int) (ts : Option ℚ)
    (hType : q.type = QuestionType.multipleChoice ∨ q.type = QuestionType.trueFalse)
    (hValid : (validateQuestionInput q ua).isOk = true) :
    ((scoreQuestion q ua ts).map fun r => (r.isCorrect, r.earnedPoints)) =
      Except.ok (if ua = q.correctAnswers then (true, q.score) else (false, 0)) := by
  obtain ⟨-, hty⟩ := validateQuestionInput_ok_facts q ua hValid
  obtain ⟨c, hc⟩ := List.length_eq_one.mp (validateQuestionType_single q hType hty)
  cases hw : validateQuestionInput q ua with
  | error e => rw [hw] at hValid; simp [isOk_error] at hValid
  | ok u =>
    rcases hType with ht | ht <;>
      simp only [scoreQuestion, hw, ht, scoreStandardQuestion, Except.map] <;>
      rw [hc] <;>
      rcases ua with - | ⟨v, - | ⟨w, us⟩⟩
    · simp
    · by_cases hv : v = c
      · simp [hv]
      · simp [hv]
    · simp
    · simp
    · by_cases hv : v = c
      · simp [hv]
      · simp [hv]
    · simp

/-- Witness for the amended C5 at the concrete question `qMC` and the exact
correct submission. -/
theorem standard_all_or_nothing_witness :
    ((scoreQuestion qMC [1] none).map fun r => (r.isCorrect, r.earnedPoints)) =
      Except.ok
        (if ([1] : List Int) = qMC.correctAnswers then (true, qMC.score) else (false, 0)) :=
  standard_all_or_nothing qMC [1] none (Or.inl rfl) (by decide)

/-- A concrete multi-correct question with base score 0. -/
def qZero : Question :=
  { id := "z1"
    text := "zero score"
    type := QuestionType.multipleSelect
    category := "Rule Application"
    answers := ["a", "b", "c"]
    correctAnswers := [0, 1]
    score := 0
    weight := 1 }

/-- C9 counterexample: grading the exactly-correct submission [0, 1] of the
zero-score question `qZero` marks the result correct (`isCorrect = true`) —
the correctness flag ignores the base score — so the claim that it is
neither correct nor partial-credit is false. -/
theorem zero_score_counterexample :
    qZero.score = 0 ∧
    ((scoreQuestion qZero [0, 1] none).map
        fun r => (r.isCorrect, r.isPartialCredit, r.earnedPoints)) =
      Except.ok (true, false, 0) := by
  refine ⟨rfl, ?_⟩
  norm_num [scoreQuestion, validateQuestionInput, validateQuestionType, validIndex,
    scoreMultipleSelectQuestion, qZero]
  rfl

/-- C9 amended: for every valid multi-correct question with base score 0, a
submission selecting exactly the correct set is marked correct (the
correctness flag compares selection counts only), is not partial credit, and
earns 0 points. -/
theorem multipleSelect_zero_score (q : Question) (ua : List Int) (ts : Option ℚ)
    (hType : q.type = QuestionType.multipleSelect)
    (hValid : (validateQuestionInput q ua).isOk = true)
    (hScore : q.score = 0)
    (hSame : ∀ a : Int, a ∈ ua ↔ a ∈ q.correctAnswers) :
    ((scoreQuestion q ua ts).map
        fun r => (r.isCorrect, r.isPartialCredit, r.earnedPoints)) =
      Except.ok (true, false, 0) := by
  have hmemb : ∀ a : Int, a ∈ ua.dedup ↔ a ∈ q.correctAnswers.dedup := by
    intro a
    rw [List.mem_dedup, List.mem_dedup]
    exact hSame a
  have hsub : ua.dedup.filter (fun a => decide (a ∈ q.correctAnswers.dedup)) = ua.dedup := by
    rw [List.filter_eq_self]
    intro a ha
    simpa using (hmemb a).mp ha
  have hemp : ua.dedup.filter (fun a => decide (a ∉ q.correctAnswers.dedup)) = [] := by
    rw [List.filter_eq_nil_iff]
    intro a ha
    simpa using (hmemb a).mp ha
  have hlen : ua.dedup.length = q.correctAnswers.dedup.length :=
    ((List.perm_ext_iff_of_nodup (List.nodup_dedup ua)
      (List.nodup_dedup q.correctAnswers)).mpr hmemb).length_eq
  cases hw : validateQuestionInput q ua with
  | error e => rw [hw] at hValid; simp [isOk_error] at hValid
  | ok u =>
    simp only [scoreQuestion, hw, hType, scoreMultipleSelectQuestion, Except.map]
    have hA : (List.filter (fun a => decide (a ∈ q.correctAnswers.dedup)) ua.dedup).length =
        q.correctAnswers.dedup.length := by rw [hsub, hlen]
    have hB : (List.filter (fun a => decide (a ∉ q.correctAnswers.dedup)) ua.dedup).length = 0 := by
      rw [hemp]
      rfl
    simp [hScore, hA, hB]
    exact ⟨by simpa using hA, fun a ha => (hSame a).mp ha⟩

/-- Witness for the amended C9 at the concrete zero-score question `qZero`
and its exactly-correct submission. -/
theorem multipleSelect_zero_score_witness :
    ((scoreQuestion qZero [0, 1] none).map
        fun r => (r.isCorrect, r.isPartialCredit, r.earnedPoints)) =
      Except.ok (true, false, 0) :=
  multipleSelect_zero_score qZero [0, 1] none rfl (by decide) rfl (fun a => Iff.rfl)

/-- A validated question always grades successfully. -/
theorem scoreQuestion_isOk (q : Question) (ua : List Int) (ts : Option ℚ)
    (h : (validateQuestionInput q ua).isOk = true) :
    (scoreQuestion q ua ts).isOk = true := by
  cases hw : validateQuestionInput q ua with
  | error e => rw [hw] at h; simp [isOk_error] at h
  | ok u => simp [scoreQuestion, hw, isOk_ok]

/-- An all-or-nothing question graded against the empty submission earns
nothing and is incorrect. -/
theorem scoreStandardQuestion_nil (q : Question) : scoreStandardQuestion q [] = (0, false) := rfl

/-- Grading any validated question against the empty submission yields zero
earned points, not correct and not partial credit. -/
theorem scoreQuestion_empty (q : Question) (ts : Option ℚ)
    (h : (validateQuestionInput q []).isOk = true) :
    ((scoreQuestion q [] ts).map fun r => (r.earnedPoints, r.isCorrect, r.isPartialCredit)) =
      Except.ok (0, false, false) := by
  obtain ⟨hne, -⟩ := validateQuestionInput_ok_facts q [] h
  have hk : 0 < q.correctAnswers.dedup.length := by
    rw [List.length_pos]
    simpa [List.dedup_eq_nil] using hne
  have hkne : q.correctAnswers.dedup.length ≠ 0 := Nat.pos_iff_ne_zero.mp hk
  cases hw : validateQuestionInput q [] with
  | error e => rw [hw] at h; simp [isOk_error] at h
  | ok u =>
    cases hqt : q.type <;>
      simp [scoreQuestion, hw, hqt, scoreStandardQuestion_nil, scoreMultipleSelectQuestion,
        Ne.symm hkne, Except.map]

/-- When every question validates against its looked-up (possibly defaulted)
submission, the whole grading pass succeeds. -/
theorem scoreQuestions_isOk (questions : List Question) (ansMap : List (String × List Int))
    (tsMap : List (String × ℚ))
    (h : ∀ q ∈ questions, (validateQuestionInput q ((ansMap.lookup q.id).getD [])).isOk = true) :
    (scoreQuestions questions ansMap tsMap).isOk = true := by
  induction questions with
  | nil => rfl
  | cons q qs ih =>
    have hq : (scoreQuestion q ((ansMap.lookup q.id).getD []) (tsMap.lookup q.id)).isOk = true :=
      scoreQuestion_isOk _ _ _ (h q (List.mem_cons_self q qs))
    have hqs := ih fun p hp => h p (List.mem_cons_of_mem q hp)
    unfold scoreQuestions at hqs ⊢
    rw [List.mapM_cons]
    cases hsq : scoreQuestion q ((ansMap.lookup q.id).getD []) (tsMap.lookup q.id) with
    | error e => rw [hsq] at hq; simp [isOk_error] at hq
    | ok r =>
      cases hrest : qs.mapM
          (fun p => scoreQuestion p ((ansMap.lookup p.id).getD []) (tsMap.lookup p.id)) with
      | error e => rw [hrest] at hqs; simp [isOk_error] at hqs
      | ok rs => rfl

/-- C6: a question whose id is absent from the answer map is graded against
the empty submission, earning zero points and marked incorrect (not partial
credit), and — all questions being valid — a missing answer never makes the
scoring pass fail. -/
theorem missing_answer_graded_empty (questions : List Question)
    (ansMap : List (String × List Int)) (tsMap : List (String × ℚ))
    (hValid : ∀ q ∈ questions,
      (validateQuestionInput q ((ansMap.lookup q.id).getD [])).isOk = true) :
    (scoreQuestions questions ansMap tsMap).isOk = true ∧
    ∀ q ∈ questions, ansMap.lookup q.id = none →
      ((scoreQuestion q [] (tsMap.lookup q.id)).map
          fun r => (r.earnedPoints, r.isCorrect, r.isPartialCredit)) =
        Except.ok (0, false, false) := by
  refine ⟨scoreQuestions_isOk questions ansMap tsMap hValid, ?_⟩
  intro q hq hnone
  exact scoreQuestion_empty q (tsMap.lookup q.id) (by simpa [hnone] using hValid q hq)

/-- Witness for C6: a one-question list with an empty answer map. -/
theorem missing_answer_graded_empty_witness :
    (scoreQuestions [qMC] [] []).isOk = true ∧
    ∀ q ∈ [qMC], List.lookup q.id ([] : List (String × List Int)) = none →
      ((scoreQuestion q [] (List.lookup q.id ([] : List (String × ℚ)))).map
          fun r => (r.earnedPoints, r.isCorrect, r.isPartialCredit)) =
        Except.ok (0, false, false) :=
  missing_answer_graded_empty [qMC] [] [] (by decide)

/-- C8: two runs of the full scoring pipeline on identical inputs produce
results identical in every field except `completedAt` (erased on both sides
below), and the `completedAt` field is exactly the supplied timestamp — the
source's only non-deterministic output. -/
theorem scoreAssessment_deterministic {Rec : Type}
    (recommend : List CategoryResult → OverallResult → PerformanceAnalysis → Rec)
    (emptyRec : Rec) (input : AssessmentInput) (options : ScoringOptions) (t1 t2 : String) :
    ((scoreAssessment recommend emptyRec input options t1).map
        fun r => { r with completedAt := "" }) =
      ((scoreAssessment recommend emptyRec input options t2).map
        fun r => { r with completedAt := "" }) ∧
    ((scoreAssessment recommend emptyRec input options t1).map fun r => r.completedAt) =
      ((scoreAssessment recommend emptyRec input options t1).map fun _ => t1) := by
  unfold scoreAssessment
  cases scoreQuestions input.questions input.userAnswers (input.timeSpent.getD []) <;>
    exact ⟨rfl, rfl⟩

/-- Sum of a list all of whose elements equal `v`. -/
theorem sum_of_all_eq (l : List ℝ) (v : ℝ) (h : ∀ x ∈ l, x = v) :
    l.sum = (l.length : ℝ) * v := by
  induction l with
  | nil => simp
  | cons x xs ih =>
    rw [List.sum_cons, h x (List.mem_cons_self x xs),
      ih fun y hy => h y (List.mem_cons_of_mem x hy), List.length_cons]
    push_cast
    ring

/-- With equal category percentages the consistency score is exactly 100. -/
theorem calculateConsistency_const (categoryResults : List CategoryResult)
    (hne : categoryResults ≠ [])
    (hall : ∀ x ∈ categoryResults, ∀ y ∈ categoryResults, x.percentage = y.percentage) :
    (calculateConsistency categoryResults).consistencyScore = 100 := by
  obtain ⟨c0, cs, rfl⟩ : ∃ c0 cs, categoryResults = c0 :: cs := by
    cases categoryResults with
    | nil => exact absurd rfl hne
    | cons c0 cs => exact ⟨c0, cs, rfl⟩
  have hn0 : ((c0 :: cs).length : ℝ) ≠ 0 := by
    simp only [List.length_cons]
    push_cast
    positivity
  have hv : ∀ x ∈ (c0 :: cs).map (fun cat => ((cat.percentage : ℚ) : ℝ)),
      x = ((c0.percentage : ℚ) : ℝ) := by
    intro x hx
    obtain ⟨c, hc, rfl⟩ := List.mem_map.mp hx
    exact_mod_cast congrArg Rat.cast (hall c hc c0 (List.mem_cons_self c0 cs))
  have hmean : ((c0 :: cs).map (fun cat => ((cat.percentage : ℚ) : ℝ))).sum /
      (((c0 :: cs).map (fun cat => ((cat.percentage : ℚ) : ℝ))).length : ℝ) =
      ((c0.percentage : ℚ) : ℝ) := by
    rw [sum_of_all_eq _ _ hv, List.length_map]
    field_simp
  have hzero : (((c0 :: cs).map (fun cat => ((cat.percentage : ℚ) : ℝ))).map
      (fun score => (score - ((c0.percentage : ℚ) : ℝ)) ^ 2)).sum = 0 := by
    apply List.sum_eq_zero
    intro x hx
    obtain ⟨s, hs, rfl⟩ := List.mem_map.mp hx
    rw [hv s hs]
    ring
  simp only [calculateConsistency]
  rw [hmean, hzero, zero_div, Real.sqrt_zero]
  by_cases hm : ((c0.percentage : ℚ) : ℝ) = 0
  · rw [if_neg (by simpa using hm)]
    norm_num
  · rw [if_pos hm]
    norm_num

/-- For the category percentages [100, 0, 100, 0] the clamped consistency
score is 0. -/
theorem calculateConsistency_spread :
    (calculateConsistency [mkCategoryResult "a" 100 1, mkCategoryResult "b" 0 1,
      mkCategoryResult "c" 100 1, mkCategoryResult "d" 0 1]).consistencyScore = 0 := by
  have h50 : Real.sqrt 2500 = 50 := by
    rw [show (2500 : ℝ) = 50 ^ 2 by norm_num]
    exact Real.sqrt_sq (by norm_num)
  simp only [calculateConsistency, mkCategoryResult]
  norm_num [h50]

/-- C7: for every non-empty list of category results, the consistency metric
computes the mean and population standard deviation of the category
percentages, the coefficient of variation stdDev/mean × 100 (0 when the mean
is 0), and consistencyScore = clamp(0, 100, 100 − CV × 2); consequently the
score is exactly 100 whenever all category percentages are equal, and for
the percentages [100, 0, 100, 0] it is 0 after clamping. -/
theorem calculateConsistency_spec (categoryResults : List CategoryResult)
    (hne : categoryResults ≠ []) :
    ((calculateConsistency categoryResults).mean =
      (categoryResults.map fun c => ((c.percentage : ℚ) : ℝ)).sum /
        (categoryResults.length : ℝ)) ∧
    ((calculateConsistency categoryResults).standardDeviation =
      Real.sqrt ((((categoryResults.map fun c => ((c.percentage : ℚ) : ℝ)).map
          fun s => (s - (calculateConsistency categoryResults).mean) ^ 2).sum) /
        (categoryResults.length : ℝ))) ∧
    ((calculateConsistency categoryResults).coefficientOfVariation =
      if (calculateConsistency categoryResults).mean = 0 then 0
      else (calculateConsistency categoryResults).standardDeviation /
        (calculateConsistency categoryResults).mean * 100) ∧
    ((calculateConsistency categoryResults).consistencyScore =
      max 0 (min 100
        (100 - (calculateConsistency categoryResults).coefficientOfVariation * 2))) ∧
    ((∀ x ∈ categoryResults, ∀ y ∈ categoryResults, x.percentage = y.percentage) →
      (calculateConsistency categoryResults).consistencyScore = 100) ∧
    ((calculateConsistency [mkCategoryResult "a" 100 1, mkCategoryResult "b" 0 1,
        mkCategoryResult "c" 100 1, mkCategoryResult "d" 0 1]).consistencyScore = 0) := by
  obtain ⟨c0, cs, rfl⟩ : ∃ c0 cs, categoryResults = c0 :: cs := by
    cases categoryResults with
    | nil => exact absurd rfl hne
    | cons c0 cs => exact ⟨c0, cs, rfl⟩
  refine ⟨?_, ?_, ?_, ?_, calculateConsistency_const (c0 :: cs) hne, calculateConsistency_spread⟩
  · simp [calculateConsistency]
  · simp [calculateConsistency]
  · simp only [calculateConsistency]
    split_ifs <;> first | rfl | tauto
  · simp [calculateConsistency]

/-- Witness for C7: two categories with equal percentages score a
consistency of exactly 100. -/
theorem calculateConsistency_spec_witness :
    (calculateConsistency
        [mkCategoryResult "A" 50 1, mkCategoryResult "B" 50 1]).consistencyScore = 100 :=
  (calculateConsistency_spec [mkCategoryResult "A" 50 1, mkCategoryResult "B" 50 1]
      (List.cons_ne_nil _ _)).2.2.2.2.1 (by decide)

/-- Membership in the key accumulator of `categoryKeys`. -/
theorem mem_categoryKeys_foldl (rs : List QuestionResult) (acc : List String) (c : String) :
    (c ∈ rs.foldl (fun keys r => if r.category ∈ keys then keys else keys ++ [r.category]) acc) ↔
      c ∈ acc ∨ c ∈ rs.map fun r => r.category := by
  induction rs generalizing acc with
  | nil => simp
  | cons r rs ih =>
    rw [List.foldl_cons, ih]
    by_cases h : r.category ∈ acc
    · rw [if_pos h]
      simp only [List.map_cons, List.mem_cons]
      constructor
      · rintro (hc | hc)
        · exact Or.inl hc
        · exact Or.inr (Or.inr hc)
      · rintro (hc | hc | hc)
        · exact Or.inl hc
        · exact Or.inl (hc ▸ h)
        · exact Or.inr hc
    · rw [if_neg h]
      simp only [List.map_cons, List.mem_cons, List.mem_append, List.mem_singleton]
      tauto

/-- The key accumulator of `categoryKeys` keeps a duplicate-free list. -/
theorem nodup_categoryKeys_foldl (rs : List QuestionResult) (acc : List String)
    (hacc : acc.Nodup) :
    (rs.foldl (fun keys r =>
      if r.category ∈ keys then keys else keys ++ [r.category]) acc).Nodup := by
  induction rs generalizing acc with
  | nil => exact hacc
  | cons r rs ih =>
    rw [List.foldl_cons]
    by_cases h : r.category ∈ acc
    · rw [if_pos h]
      exact ih acc hacc
    · rw [if_neg h]
      refine ih _ (List.Nodup.append hacc (List.nodup_singleton _) ?_)
      simpa [List.disjoint_singleton] using h

/-- A category is a key iff some input result carries it. -/
theorem mem_categoryKeys (rs : List QuestionResult) (c : String) :
    c ∈ categoryKeys rs ↔ c ∈ rs.map fun r => r.category := by
  unfold categoryKeys
  rw [mem_categoryKeys_foldl]
  simp

/-- The category keys are duplicate-free. -/
theorem nodup_categoryKeys (rs : List QuestionResult) : (categoryKeys rs).Nodup :=
  nodup_categoryKeys_foldl rs [] List.nodup_nil

/-- `scoreCategoryFromResults` names its output after its category input. -/
theorem scoreCategoryFromResults_name (c : String) (l : List QuestionResult) :
    (scoreCategoryFromResults c l).name = c := rfl

/-- The totals of `scoreCategoryFromResults` are the sums over its member
results, and its percentage is the guarded ratio. -/
theorem scoreCategoryFromResults_fields (c : String) (l : List QuestionResult) :
    (scoreCategoryFromResults c l).earnedPoints = (l.map fun r => r.earnedPoints).sum ∧
    (scoreCategoryFromResults c l).maxPoints = (l.map fun r => r.maxPoints).sum ∧
    (scoreCategoryFromResults c l).totalWeight = (l.map fun r => r.weight).sum ∧
    (scoreCategoryFromResults c l).percentage =
      (if 0 < (scoreCategoryFromResults c l).maxPoints then
        (scoreCategoryFromResults c l).earnedPoints /
          (scoreCategoryFromResults c l).maxPoints * 100
      else 0) := by
  refine ⟨?_, ?_, ?_, ?_⟩ <;> simp [scoreCategoryFromResults, foldl_add_sum]

/-- The pre-sort category results are named by the category keys. -/
theorem grouped_names (rs : List QuestionResult) :
    (((groupByCategory rs).map fun p => scoreCategoryFromResults p.1 p.2).map
      fun cr => cr.name) = categoryKeys rs := by
  simp [groupByCategory, List.map_map, Function.comp_def, scoreCategoryFromResults_name]

/-- C4: category aggregation returns exactly one result per distinct
category present in the input (absent categories are omitted), emitted
sorted by category name; within each category the totals are the sums over
its member question results and the percentage is
earnedPoints/maxPoints × 100, 0 when maxPoints is 0. -/
theorem scoreCategories_spec (questionResults : List QuestionResult)
    (hMax : ∀ r ∈ questionResults, 0 ≤ r.maxPoints) :
    (((scoreCategories questionResults).map fun cr => cr.name).Nodup) ∧
    (∀ c : String, ((c ∈ (scoreCategories questionResults).map fun cr => cr.name) ↔
      c ∈ questionResults.map fun r => r.category)) ∧
    List.Pairwise (fun a b : CategoryResult => a.name ≤ b.name)
      (scoreCategories questionResults) ∧
    ∀ cr ∈ scoreCategories questionResults,
      cr.earnedPoints = ((questionResults.filter fun r => decide (r.category = cr.name)).map
        fun r => r.earnedPoints).sum ∧
      cr.maxPoints = ((questionResults.filter fun r => decide (r.category = cr.name)).map
        fun r => r.maxPoints).sum ∧
      cr.totalWeight = ((questionResults.filter fun r => decide (r.category = cr.name)).map
        fun r => r.weight).sum ∧
      cr.percentage = (if cr.maxPoints = 0 then 0 else cr.earnedPoints / cr.maxPoints * 100) := by
  have hperm : (scoreCategories questionResults).Perm
      ((groupByCategory questionResults).map fun p => scoreCategoryFromResults p.1 p.2) := by
    simp only [scoreCategories]
    exact List.mergeSort_perm _ _
  have hpermNames := hperm.map fun cr => cr.name
  refine ⟨?_, ?_, ?_, ?_⟩
  · exact hpermNames.nodup_iff.mpr (grouped_names questionResults ▸
      nodup_categoryKeys questionResults)
  · intro c
    rw [hpermNames.mem_iff, grouped_names questionResults, mem_categoryKeys]
  · have htr : ∀ a b c : CategoryResult,
        byName a b = true → byName b c = true → byName a c = true := by
      intro a b c hab hbc
      simp only [byName, decide_eq_true_eq] at hab hbc ⊢
      exact le_trans hab hbc
    have hto : ∀ a b : CategoryResult, (byName a b || byName b a) = true := by
      intro a b
      simp only [byName]
      rcases le_total a.name b.name with h | h <;> simp [h]
    have hs := List.sorted_mergeSort htr hto
      ((groupByCategory questionResults).map fun p => scoreCategoryFromResults p.1 p.2)
    simp only [scoreCategories]
    refine hs.imp fun h => ?_
    simpa [byName] using h
  · intro cr hcr
    rw [hperm.mem_iff] at hcr
    obtain ⟨p, hp, rfl⟩ := List.mem_map.mp hcr
    obtain ⟨c, hc, rfl⟩ := List.mem_map.mp hp
    dsimp only
    obtain ⟨he, hm, hw, hpct⟩ := scoreCategoryFromResults_fields c
      (questionResults.filter fun r => decide (r.category = c))
    rw [scoreCategoryFromResults_name]
    refine ⟨he, hm, hw, ?_⟩
    have hnn : 0 ≤ (scoreCategoryFromResults c
        (questionResults.filter fun r => decide (r.category = c))).maxPoints := by
      rw [hm]
      apply List.sum_nonneg
      intro x hx
      obtain ⟨r, hr, rfl⟩ := List.mem_map.mp hx
      exact hMax r (List.mem_of_mem_filter hr)
    rcases eq_or_lt_of_le hnn with hz | hpos
    · rw [hpct, if_neg (by rw [← hz]; exact lt_irrefl 0), if_pos hz.symm]
    · rw [hpct, if_pos hpos, if_neg (LT.lt.ne hpos).symm]

/-- A concrete question result used as test input for the aggregation
claims. -/
def mkQuestionResult (id category : String) (earned maxPts w : ℚ) : QuestionResult :=
  { questionId := id
    category := category
    type := QuestionType.multipleChoice
    userAnswers := [0]
    correctAnswers := [0]
    earnedPoints := earned
    maxPoints := maxPts
    percentage := 0
    isCorrect := false
    isPartialCredit := false
    partialCreditDetails := none
    weight := w
    timeSpent := none }

/-- A concrete two-category input for the aggregation witness. -/
def sampleResults : List QuestionResult :=
  [mkQuestionResult "q1" "B" 5 10 1, mkQuestionResult "q2" "A" 3 10 2]

/-- Witness for C4 at a concrete two-category input. -/
theorem scoreCategories_spec_witness :
    (((scoreCategories sampleResults).map fun cr => cr.name).Nodup) ∧
    (∀ c : String, ((c ∈ (scoreCategories sampleResults).map fun cr => cr.name) ↔
      c ∈ sampleResults.map fun r => r.category)) ∧
    List.Pairwise (fun a b : CategoryResult => a.name ≤ b.name) (scoreCategories sampleResults) ∧
    ∀ cr ∈ scoreCategories sampleResults,
      cr.earnedPoints = ((sampleResults.filter fun r => decide (r.category = cr.name)).map
        fun r => r.earnedPoints).sum ∧
      cr.maxPoints = ((sampleResults.filter fun r => decide (r.category = cr.name)).map
        fun r => r.maxPoints).sum ∧
      cr.totalWeight = ((sampleResults.filter fun r => decide (r.category = cr.name)).map
        fun r => r.weight).sum ∧
      cr.percentage = (if cr.maxPoints = 0 then 0 else cr.earnedPoints / cr.maxPoints * 100) :=
  scoreCategories_spec sampleResults (by decide)
